import Mathlib

/-
Verification of the Identity Matching & Enrollment Engine of the
face_auth repository (src/python_face_auth.py and
src/python_face_auth_simple.py), as a shallow embedding.

Embedding conventions:
* A face encoding (a numeric vector) is a `List ℚ`; the floating-point
  arithmetic of the source is idealised by exact rational arithmetic.
* The external library call `face_recognition.face_distance`
  (a per-sample Euclidean distance, computed outside this repository)
  is modelled as an arbitrary parameter `d : Encoding → Encoding → ℚ`;
  every theorem below is proved for all such distance functions.
  The library call raises a shape error when an encoding's length
  differs from the probe's length; that guard is modelled explicitly.
* The JSON database dictionary is a `List (String × UserRecord)` in
  insertion order, with python-dict key semantics given by `dictGet`
  (first matching key) and `dictSet` (replace first occurrence, else
  append at the end).
* Camera capture, file IO and printing are outside the embedded core;
  a capture or per-sample processing failure during registration is
  an entry `none` in the input list, and a per-file load failure in
  the simple engine's source/ scan is a `none` entry of the file list.
* `datetime.now()` is an injected `now : String` parameter.
-/

/-- A face encoding: the numeric vector stored under the `"encoding"` key. -/
abbrev Encoding := List ℚ

/-- One element of a user's `"face_encodings"` list, as built by
`register_user`: the encoding plus its capture metadata. -/
structure FaceSample where
  encoding : Encoding
  timestamp : String
  image_path : String
  sample_id : String

/-- One value of the `"users"` mapping, as built by
`HighAccuracyFaceAuth.register_user`.  A JSON record that lacks the
`"last_authentication"` / `"authentication_count"` keys is read by the
source through `.get(..., default)`, so absence is identified with
`none` / `0`. -/
structure UserRecord where
  user_id : String
  face_encodings : List FaceSample
  enrollment_date : String
  sample_count : Nat
  last_authentication : Option String
  authentication_count : Nat

/-- The persisted database dictionary: `users`, `version`,
`accuracy_threshold`, and the optional `created` timestamp (present
only when the file was freshly created). -/
structure Database where
  users : List (String × UserRecord)
  version : String
  accuracy_threshold : ℚ
  created : Option String

/-- Python-dict lookup on the `users` association list: the first pair
whose key matches. -/
def dictGet (k : String) : List (String × UserRecord) → Option UserRecord
  | [] => none
  | p :: rest => if p.1 = k then some p.2 else dictGet k rest

/-- Python-dict assignment `users[k] = v`: replace the first occurrence
of the key in place (dict order is preserved), else append at the end. -/
def dictSet (k : String) (v : UserRecord) : List (String × UserRecord) → List (String × UserRecord)
  | [] => [(k, v)]
  | p :: rest => if p.1 = k then (k, v) :: rest else p :: dictSet k v rest

/-- The three ways `load_database` can find the world: the file is
absent, reading or parsing it raised an exception, or it parsed to a
database value. -/
inductive LoadSource where
  | absent
  | failed
  | ok (db : Database)

/-- Model of `load_database` (both classes): an existing parseable file is
loaded as is; an absent file yields a fresh database (with a
`created` stamp); any exception yields the silent fallback
`{"users": {}, "version": "1.0", "accuracy_threshold": 0.6}` —
no error is returned to the caller in any case. -/
def load_database (now : String) : LoadSource → Database
  | .ok db => db
  | .absent => { users := [], version := "1.0", accuracy_threshold := 6/10, created := some now }
  | .failed => { users := [], version := "1.0", accuracy_threshold := 6/10, created := none }

/-- Embedding of `HighAccuracyFaceAuth.register_user`.  `samples` is the per-loop
outcome of capture + encoding for each of the `num_samples` attempts:
`none` when capture failed, no face was found, or processing raised
(the loop `continue`s), `some s` when the sample dict `s` was appended.
If no sample survived, the function returns `False` and the database
is untouched; otherwise the user's record is (over)written with the
surviving samples in order, `last_authentication = None` and
`authentication_count = 0`, and the function returns `True`.
There is no check for a pre-existing `user_id`. -/
def register_user (user_id : String) (samples : List (Option FaceSample)) (now : String)
    (db : Database) : Bool × Database :=
  match samples.filterMap id with
  | [] => (false, db)
  | s :: ss =>
    let newRec : UserRecord :=
      { user_id := user_id, face_encodings := s :: ss, enrollment_date := now,
        sample_count := (s :: ss).length, last_authentication := none,
        authentication_count := 0 }
    (true, { db with users := dictSet user_id newRec db.users })

/-- Model of `np.min` over a nonempty list ( `listMin [] = 0` is never reached:
the engine raises on an empty sample list before taking the minimum). -/
def listMin : List ℚ → ℚ
  | [] => 0
  | [x] => x
  | x :: y :: xs => min x (listMin (y :: xs))

/-- Analogue of `np.max`, used only to state the interval property. -/
def listMax : List ℚ → ℚ
  | [] => 0
  | [x] => x
  | x :: y :: xs => max x (listMax (y :: xs))

/-- Model of `np.mean`: sum divided by length. -/
def listMean (l : List ℚ) : ℚ := l.sum / (l.length : ℚ)

/-- A concrete distance function (sum of absolute coordinate
differences) used only to instantiate the abstract distance parameter
in witnesses and counterexamples; the inputs there are chosen so that
it agrees with the Euclidean distance of the real library on the
relevant comparisons (identical vectors are at distance 0, distinct
ones at positive distance). -/
def sumAbs (a b : Encoding) : ℚ := (List.zipWith (fun x y => |x - y|) a b).sum

/-- The value `min_distance = np.min(distances)` for one user's encodings. -/
def min_distance (d : Encoding → Encoding → ℚ) (probe : Encoding) (encs : List Encoding) : ℚ :=
  listMin (encs.map (fun e => d e probe))

/-- The value `avg_distance = np.mean(distances)` for one user's encodings. -/
def avg_distance (d : Encoding → Encoding → ℚ) (probe : Encoding) (encs : List Encoding) : ℚ :=
  listMean (encs.map (fun e => d e probe))

/-- The weighted `score = 0.7 * min_distance + 0.3 * avg_distance`
(python_face_auth.py line 249). -/
def user_score (d : Encoding → Encoding → ℚ) (probe : Encoding) (encs : List Encoding) : ℚ :=
  7/10 * min_distance d probe encs + 3/10 * avg_distance d probe encs

/-- Whether processing one user's samples completes without raising:
`face_recognition.face_distance` followed by `np.min` raises when the
sample list is empty or some stored encoding's length differs from the
probe's. -/
def userOk (probe : Encoding) (rec : UserRecord) : Bool :=
  !rec.face_encodings.isEmpty &&
    (rec.face_encodings.map (fun s => s.encoding)).all (fun e => e.length = probe.length)

/-- The `best_match` dictionary of `HighAccuracyFaceAuth.authenticate_user`. -/
structure BestMatch where
  user_id : String
  distance : ℚ
  avg_distance : ℚ
  confidence : ℚ
  score : ℚ

/-- The comparison loop of `HighAccuracyFaceAuth.authenticate_user`
(lines 240-261): iterate the `users` dict in order; for each user
compute min/avg distance and the weighted score, and keep the running
best under the strict test `score < best_distance` (so the earliest
user wins ties).  Any raised exception propagates to the enclosing
`try` and aborts the whole comparison, modelled by the outer `none`. -/
def compareUsers (d : Encoding → Encoding → ℚ) (probe : Encoding) :
    List (String × UserRecord) → Option BestMatch → Option (Option BestMatch)
  | [], best => some best
  | (uid, rec) :: rest, best =>
    if userOk probe rec then
      let encs := rec.face_encodings.map (fun s => s.encoding)
      let mn := min_distance d probe encs
      let sc := user_score d probe encs
      let best' :=
        match best with
        | none => some { user_id := uid, distance := mn, avg_distance := avg_distance d probe encs,
                         confidence := max 0 (1 - mn), score := sc }
        | some bm =>
          if sc < bm.score then
            some { user_id := uid, distance := mn, avg_distance := avg_distance d probe encs,
                   confidence := max 0 (1 - mn), score := sc }
          else some bm
      compareUsers d probe rest best'
    else none

/-- The fields of the result dictionary of
`HighAccuracyFaceAuth.authenticate_user` that belong to the matching
core.  `distance = none` models the `float('inf')` placeholder used
when no user was compared. -/
structure AuthResult where
  is_match : Bool
  matched_user : Option String
  confidence : ℚ
  distance : Option ℚ
  threshold : ℚ

/-- Outcome of a call: `{"success": False, "error": ...}` versus a normal result. -/
inductive AuthOutcome where
  | failure
  | success (r : AuthResult)

/-- Replace the matched user's record by one with
`last_authentication = now` and `authentication_count` incremented
(the in-place update of lines 281-283). -/
def touchUser (uid : String) (now : String) :
    List (String × UserRecord) → List (String × UserRecord)
  | [] => []
  | (k, v) :: rest =>
    if k = uid then
      (k, { v with last_authentication := some now,
                   authentication_count := v.authentication_count + 1 }) :: rest
    else (k, v) :: touchUser uid now rest

/-- Embedding of `HighAccuracyFaceAuth.authenticate_user`, after a probe encoding
has been obtained (capture and face detection are external).  Runs the
comparison loop; `is_match = best_match and best_distance <= tolerance`;
on a match the database is mutated in place (`last_authentication`,
`authentication_count`) and saved before the result is returned. -/
def authenticate_user (d : Encoding → Encoding → ℚ) (now : String) (probe : Encoding)
    (db : Database) (tolerance : ℚ) : AuthOutcome × Database :=
  match compareUsers d probe db.users none with
  | none => (.failure, db)
  | some none =>
    (.success { is_match := false, matched_user := none, confidence := 0,
                distance := none, threshold := tolerance }, db)
  | some (some b) =>
    if b.score ≤ tolerance then
      (.success { is_match := true, matched_user := some b.user_id, confidence := b.confidence,
                  distance := some b.distance, threshold := tolerance },
       { db with users := touchUser b.user_id now db.users })
    else
      (.success { is_match := false, matched_user := some b.user_id, confidence := b.confidence,
                  distance := some b.distance, threshold := tolerance }, db)

/-- The weighted score of one `users` entry, as computed inside the
comparison loop; used to state selection properties. -/
def scoreOfPair (d : Encoding → Encoding → ℚ) (probe : Encoding) (p : String × UserRecord) : ℚ :=
  user_score d probe (p.2.face_encodings.map (fun s => s.encoding))

/-- The per-file loop of `SimpleFaceAuth.authenticate_user`
(lines 242-271).  Each element of `files` is one JSON file of the
source/ directory: `none` when loading or parsing it raised (the
`except: continue`), otherwise its `user_id` and the encodings of its
`face_encodings` list.  A falsy `user_id` or an empty encoding list is
skipped before `users_loaded` is incremented; a shape error raised by
`face_distance` is caught after it, so the file counts but contributes
no candidate.  The running best uses the strict test
`min_distance < best_distance`. -/
def simpleScan (d : Encoding → Encoding → ℚ) (probe : Encoding) :
    List (Option (String × List Encoding)) → Nat → Option (String × ℚ) → Nat × Option (String × ℚ)
  | [], n, best => (n, best)
  | none :: rest, n, best => simpleScan d probe rest n best
  | some (uid, encs) :: rest, n, best =>
    if uid = "" then simpleScan d probe rest n best
    else if encs.isEmpty then simpleScan d probe rest n best
    else if encs.all (fun e => e.length = probe.length) then
      let m := listMin (encs.map (fun e => d e probe))
      let best' :=
        match best with
        | none => some (uid, m)
        | some (bu, bd) => if m < bd then some (uid, m) else some (bu, bd)
      simpleScan d probe rest (n + 1) best'
    else simpleScan d probe rest (n + 1) best

/-- Embedding of `SimpleFaceAuth.authenticate_user`, after a probe encoding has been
obtained: scan all source/ files; return `False` when no file yielded a
countable user, otherwise `best_match and best_distance <= tolerance`.
The return type is a plain boolean — there is no distinct error value. -/
def simple_authenticate_user (d : Encoding → Encoding → ℚ) (probe : Encoding)
    (files : List (Option (String × List Encoding))) (tolerance : ℚ) : Bool :=
  match simpleScan d probe files 0 none with
  | (0, _) => false
  | (_ + 1, none) => false
  | (_ + 1, some (_, bd)) => decide (bd ≤ tolerance)

/-- The JSON object written by `SimpleFaceAuth.export_user`. -/
structure ExportFile where
  user_id : String
  user_data : UserRecord
  exported_at : String
  version : String

/-- Embedding of `SimpleFaceAuth.export_user`: `none` when the user is absent,
otherwise the export wrapper around the stored record. -/
def export_user (uid : String) (now : String) (db : Database) : Option ExportFile :=
  match dictGet uid db.users with
  | none => none
  | some r => some { user_id := uid, user_data := r, exported_at := now, version := db.version }

/-- Embedding of `SimpleFaceAuth.import_user`.  `answerYes` is the reply to the
interactive overwrite prompt, consulted only when the identity already
exists: a non-`y` reply cancels the import (`False`, nothing changed);
otherwise the stored record is assigned wholesale from the file's
`user_data` field. -/
def import_user (file : ExportFile) (answerYes : Bool) (db : Database) : Bool × Database :=
  match dictGet file.user_id db.users with
  | some _ =>
    if answerYes then
      (true, { db with users := dictSet file.user_id file.user_data db.users })
    else (false, db)
  | none => (true, { db with users := dictSet file.user_id file.user_data db.users })


/-- Record used for the concrete mutation scenario of claim C3. -/
def recC3 : UserRecord :=
  { user_id := "u1",
    face_encodings := [{ encoding := [1, 2], timestamp := "t", image_path := "p",
                         sample_id := "s" }],
    enrollment_date := "e", sample_count := 1, last_authentication := none,
    authentication_count := 0 }

/-- Registry with the single user `"u1"` for the C3 scenario. -/
def dbC3 : Database :=
  { users := [("u1", recC3)], version := "1.0", accuracy_threshold := 6/10, created := none }

/-- The record of `"u1"` after the in-place update the engine performs
on an accepted match (C3 scenario). -/
def recC3t : UserRecord :=
  { user_id := "u1",
    face_encodings := [{ encoding := [1, 2], timestamp := "t", image_path := "p",
                         sample_id := "s" }],
    enrollment_date := "e", sample_count := 1, last_authentication := some "n1",
    authentication_count := 1 }

/-- The C3 registry after the accepted match. -/
def dbC3t : Database :=
  { users := [("u1", recC3t)], version := "1.0", accuracy_threshold := 6/10, created := none }

/-- The pre-existing record of `"alice"` for the C5 scenario. -/
def recC5old : UserRecord :=
  { user_id := "alice",
    face_encodings := [{ encoding := [1, 2], timestamp := "t0", image_path := "p0",
                         sample_id := "s0" }],
    enrollment_date := "e0", sample_count := 1, last_authentication := none,
    authentication_count := 5 }

/-- Registry already containing `"alice"` (C5 scenario). -/
def dbC5 : Database :=
  { users := [("alice", recC5old)], version := "1.0", accuracy_threshold := 6/10,
    created := none }

/-- The freshly captured sample re-enrolled for `"alice"` (C5 scenario). -/
def sC5 : FaceSample :=
  { encoding := [3, 4], timestamp := "t1", image_path := "p1", sample_id := "s1" }

/-- The record that re-registration builds for `"alice"` (C5 scenario). -/
def recC5new : UserRecord :=
  { user_id := "alice", face_encodings := [sC5], enrollment_date := "now1",
    sample_count := 1, last_authentication := none, authentication_count := 0 }

/-- First surviving sample of the C9 enrollment scenario. -/
def sC9a : FaceSample :=
  { encoding := [1, 1], timestamp := "tb1", image_path := "pb1", sample_id := "sb1" }

/-- Second surviving sample of the C9 enrollment scenario. -/
def sC9b : FaceSample :=
  { encoding := [2, 2], timestamp := "tb2", image_path := "pb2", sample_id := "sb2" }

/-- Empty registry for the C9 enrollment scenario. -/
def dbC9 : Database :=
  { users := [], version := "1.0", accuracy_threshold := 6/10, created := none }

/-- The record stored for `"bob"` in the C9 scenario: the two surviving
samples in order, counters zeroed. -/
def recC9 : UserRecord :=
  { user_id := "bob", face_encodings := [sC9a, sC9b], enrollment_date := "nowB",
    sample_count := 2, last_authentication := none, authentication_count := 0 }

/-- Stored record of `"dora"` before the C6 import. -/
def recC6old : UserRecord :=
  { user_id := "dora",
    face_encodings := [{ encoding := [1, 2], timestamp := "td0", image_path := "pd0",
                         sample_id := "sd0" }],
    enrollment_date := "ed", sample_count := 1, last_authentication := some "ld",
    authentication_count := 3 }

/-- Replacement record carried by the C6 import file. -/
def recC6new : UserRecord :=
  { user_id := "dora",
    face_encodings := [{ encoding := [7, 8], timestamp := "td1", image_path := "pd1",
                         sample_id := "sd1" }],
    enrollment_date := "ed2", sample_count := 1, last_authentication := none,
    authentication_count := 0 }

/-- Registry already containing `"dora"` (C6 scenario). -/
def dbC6 : Database :=
  { users := [("dora", recC6old)], version := "1.0", accuracy_threshold := 6/10,
    created := none }

/-- The import file of the C6 scenario. -/
def fC6 : ExportFile :=
  { user_id := "dora", user_data := recC6new, exported_at := "xd", version := "1.0" }

/-- Stored record of `"carl"` (C7 round-trip scenario). -/
def recC7 : UserRecord :=
  { user_id := "carl",
    face_encodings := [{ encoding := [5, 6], timestamp := "tc", image_path := "pc",
                         sample_id := "sc" }],
    enrollment_date := "ec", sample_count := 1, last_authentication := some "lc",
    authentication_count := 2 }

/-- Registry containing `"carl"` (C7 round-trip scenario). -/
def dbC7 : Database :=
  { users := [("carl", recC7)], version := "1.0", accuracy_threshold := 6/10,
    created := none }

/-- Record of `"zz"` for the C2 tie scenario (same samples as `"aa"`,
so every distance function scores them identically). -/
def recC2z : UserRecord :=
  { user_id := "zz",
    face_encodings := [{ encoding := [1, 2], timestamp := "tz", image_path := "pz",
                         sample_id := "sz" }],
    enrollment_date := "ez", sample_count := 1, last_authentication := none,
    authentication_count := 0 }

/-- Record of `"aa"` for the C2 tie scenario. -/
def recC2a : UserRecord :=
  { user_id := "aa",
    face_encodings := [{ encoding := [1, 2], timestamp := "ta", image_path := "pa",
                         sample_id := "sa" }],
    enrollment_date := "ea", sample_count := 1, last_authentication := none,
    authentication_count := 0 }

/-- Registry whose dict iteration order is `"zz"` before `"aa"`
(C2 tie scenario). -/
def dbC2 : Database :=
  { users := [("zz", recC2z), ("aa", recC2a)], version := "1.0",
    accuracy_threshold := 6/10, created := none }

/-! ## General lemmas about the aggregation primitives -/

theorem listMin_le_of_mem {x : ℚ} : ∀ {l : List ℚ}, x ∈ l → listMin l ≤ x := by
  intro l
  induction l with
  | nil => intro h; cases h
  | cons a t ih =>
    intro h
    cases t with
    | nil =>
      have hx : x = a := by simpa using h
      simp [listMin, hx]
    | cons b u =>
      rcases List.mem_cons.mp h with hx | hm
      · subst hx; exact min_le_left _ _
      · exact le_trans (min_le_right _ _) (ih hm)

theorem le_listMax_of_mem {x : ℚ} : ∀ {l : List ℚ}, x ∈ l → x ≤ listMax l := by
  intro l
  induction l with
  | nil => intro h; cases h
  | cons a t ih =>
    intro h
    cases t with
    | nil =>
      have hx : x = a := by simpa using h
      simp [listMax, hx]
    | cons b u =>
      rcases List.mem_cons.mp h with hx | hm
      · subst hx; exact le_max_left _ _
      · exact le_trans (ih hm) (le_max_right _ _)

theorem length_mul_listMin_le_sum : ∀ {l : List ℚ}, l ≠ [] → (l.length : ℚ) * listMin l ≤ l.sum := by
  intro l
  induction l with
  | nil => intro h; exact absurd rfl h
  | cons a t ih =>
    intro _
    cases t with
    | nil => simp [listMin]
    | cons b u =>
      have h1 := ih (by simp)
      have hmin1 : min a (listMin (b :: u)) ≤ a := min_le_left _ _
      have hmin2 : min a (listMin (b :: u)) ≤ listMin (b :: u) := min_le_right _ _
      have hn : (0:ℚ) ≤ ((b :: u).length : ℚ) := by positivity
      have h2 : ((b :: u).length : ℚ) * min a (listMin (b :: u)) ≤
          ((b :: u).length : ℚ) * listMin (b :: u) := mul_le_mul_of_nonneg_left hmin2 hn
      have heq : listMin (a :: b :: u) = min a (listMin (b :: u)) := rfl
      simp only [List.length_cons, List.sum_cons, heq] at h1 h2 ⊢
      push_cast at h1 h2 ⊢
      linarith

theorem sum_le_length_mul_listMax : ∀ {l : List ℚ}, l ≠ [] → l.sum ≤ (l.length : ℚ) * listMax l := by
  intro l
  induction l with
  | nil => intro h; exact absurd rfl h
  | cons a t ih =>
    intro _
    cases t with
    | nil => simp [listMax]
    | cons b u =>
      have h1 := ih (by simp)
      have hmax1 : a ≤ max a (listMax (b :: u)) := le_max_left _ _
      have hmax2 : listMax (b :: u) ≤ max a (listMax (b :: u)) := le_max_right _ _
      have hn : (0:ℚ) ≤ ((b :: u).length : ℚ) := by positivity
      have h2 : ((b :: u).length : ℚ) * listMax (b :: u) ≤
          ((b :: u).length : ℚ) * max a (listMax (b :: u)) := mul_le_mul_of_nonneg_left hmax2 hn
      have heq : listMax (a :: b :: u) = max a (listMax (b :: u)) := rfl
      simp only [List.length_cons, List.sum_cons, heq] at h1 h2 ⊢
      push_cast at h1 h2 ⊢
      linarith

theorem listMin_le_listMean {l : List ℚ} (h : l ≠ []) : listMin l ≤ listMean l := by
  have hn : (0:ℚ) < (l.length : ℚ) := by
    have hp : 0 < l.length := List.length_pos.mpr h
    exact_mod_cast hp
  rw [listMean, le_div_iff₀ hn]
  have hs := length_mul_listMin_le_sum h
  linarith

theorem listMean_le_listMax {l : List ℚ} (h : l ≠ []) : listMean l ≤ listMax l := by
  have hn : (0:ℚ) < (l.length : ℚ) := by
    have hp : 0 < l.length := List.length_pos.mpr h
    exact_mod_cast hp
  rw [listMean, div_le_iff₀ hn]
  have hs := sum_le_length_mul_listMax h
  linarith

/-- C1: for every identity with a non-empty sample set, the engine's
ranking score is `0.7 * min + 0.3 * mean` of the per-sample distances
from the probe, and this score lies in the closed interval between the
minimum and the maximum of those distances. -/
theorem C1_score_formula_and_interval (d : Encoding → Encoding → ℚ) (probe : Encoding)
    (encs : List Encoding) (h : encs ≠ []) :
    user_score d probe encs =
      7/10 * listMin (encs.map (fun e => d e probe)) +
        3/10 * listMean (encs.map (fun e => d e probe)) ∧
    listMin (encs.map (fun e => d e probe)) ≤ user_score d probe encs ∧
    user_score d probe encs ≤ listMax (encs.map (fun e => d e probe)) := by
  have hds : encs.map (fun e => d e probe) ≠ [] := by
    intro hc
    exact h (List.map_eq_nil_iff.mp hc)
  have h1 := listMin_le_listMean hds
  have h2 := listMean_le_listMax hds
  refine ⟨rfl, ?_, ?_⟩ <;>
    simp only [user_score, min_distance, avg_distance] <;> linarith

/-- Witness for C1 at a concrete probe and sample set. -/
theorem C1_score_formula_and_interval_witness :
    (([[1, 2], [4, 6]] : List Encoding) ≠ []) ∧
    (user_score sumAbs [1, 2] [[1, 2], [4, 6]] =
      7/10 * listMin (([[1, 2], [4, 6]] : List Encoding).map (fun e => sumAbs e [1, 2])) +
        3/10 * listMean (([[1, 2], [4, 6]] : List Encoding).map (fun e => sumAbs e [1, 2])) ∧
    listMin (([[1, 2], [4, 6]] : List Encoding).map (fun e => sumAbs e [1, 2])) ≤
      user_score sumAbs [1, 2] [[1, 2], [4, 6]] ∧
    user_score sumAbs [1, 2] [[1, 2], [4, 6]] ≤
      listMax (([[1, 2], [4, 6]] : List Encoding).map (fun e => sumAbs e [1, 2]))) :=
  ⟨by simp, C1_score_formula_and_interval sumAbs [1, 2] [[1, 2], [4, 6]] (by simp)⟩

/-! ## Lemmas about the dictionary operations -/

theorem dictGet_dictSet_self (k : String) (v : UserRecord) :
    ∀ l, dictGet k (dictSet k v l) = some v := by
  intro l
  induction l with
  | nil => simp [dictGet, dictSet]
  | cons p rest ih =>
    by_cases h : p.1 = k
    · simp [dictGet, dictSet, h]
    · simp [dictGet, dictSet, h, ih]

theorem dictGet_dictSet_ne (k v' : String) (v : UserRecord) (h : v' ≠ k) :
    ∀ l, dictGet v' (dictSet k v l) = dictGet v' l := by
  have hk : ¬ (k = v') := fun hc => h hc.symm
  intro l
  induction l with
  | nil => simp [dictGet, dictSet, hk]
  | cons p rest ih =>
    by_cases hp : p.1 = k
    · have hpv : ¬ (p.1 = v') := by rw [hp]; exact hk
      simp [dictGet, dictSet, hp, hpv, hk]
    · by_cases hq : p.1 = v'
      · simp [dictGet, dictSet, hp, hq, h, hk]
      · simp [dictGet, dictSet, hp, hq, ih]

theorem dictSet_of_dictGet (k : String) (v : UserRecord) :
    ∀ l, dictGet k l = some v → dictSet k v l = l := by
  intro l
  induction l with
  | nil => intro h; simp [dictGet] at h
  | cons p rest ih =>
    intro h
    by_cases hp : p.1 = k
    · simp only [dictGet, hp, if_pos] at h
      have hv : v = p.2 := by injection h with h2; exact h2.symm
      simp [dictSet, hp, hv]
      exact Prod.ext hp.symm rfl
    · simp only [dictGet, hp, if_neg, if_false] at h
      simp [dictSet, hp, ih h]

theorem dictGet_touchUser_self (uid now : String) :
    ∀ l, dictGet uid (touchUser uid now l) =
      (dictGet uid l).map (fun r =>
        { r with last_authentication := some now,
                 authentication_count := r.authentication_count + 1 }) := by
  intro l
  induction l with
  | nil => simp [dictGet, touchUser]
  | cons p rest ih =>
    rcases p with ⟨k, v⟩
    by_cases h : k = uid
    · simp [dictGet, touchUser, h]
    · simp [dictGet, touchUser, h, ih]

theorem dictGet_touchUser_ne (uid now v : String) (h : v ≠ uid) :
    ∀ l, dictGet v (touchUser uid now l) = dictGet v l := by
  have hu : ¬ (uid = v) := fun hc => h hc.symm
  intro l
  induction l with
  | nil => simp [touchUser]
  | cons p rest ih =>
    rcases p with ⟨k, w⟩
    by_cases hk : k = uid
    · simp [dictGet, touchUser, hk, hu]
    · by_cases hq : k = v
      · simp [dictGet, touchUser, hk, hq, h]
      · simp [dictGet, touchUser, hk, hq, ih]

/-! ## C4: the empty registry is a normal, non-exceptional state -/

/-- C4: authenticating against a registry with no identities returns a
normal result with no matched user and `is_match = false` — never the
failure outcome — and the registry is untouched. -/
theorem C4_empty_registry_no_match (d : Encoding → Encoding → ℚ) (now : String)
    (probe : Encoding) (db : Database) (tol : ℚ) (h : db.users = []) :
    (authenticate_user d now probe db tol).1 =
      .success { is_match := false, matched_user := none, confidence := 0,
                 distance := none, threshold := tol } ∧
    (authenticate_user d now probe db tol).2 = db := by
  constructor <;> simp [authenticate_user, h, compareUsers]

/-- Witness for C4 on a concrete empty registry. -/
theorem C4_empty_registry_no_match_witness :
    (({ users := [], version := "1.0", accuracy_threshold := 6/10,
        created := none } : Database).users = []) ∧
    ((authenticate_user sumAbs "n" [1, 2]
        { users := [], version := "1.0", accuracy_threshold := 6/10, created := none }
        (6/10)).1 =
      .success { is_match := false, matched_user := none, confidence := 0,
                 distance := none, threshold := 6/10 } ∧
    (authenticate_user sumAbs "n" [1, 2]
        { users := [], version := "1.0", accuracy_threshold := 6/10, created := none }
        (6/10)).2 =
      { users := [], version := "1.0", accuracy_threshold := 6/10, created := none }) :=
  ⟨rfl, C4_empty_registry_no_match sumAbs "n" [1, 2] _ (6/10) rfl⟩

/-! ## C10: silent fallback on a failed database load -/

/-- C10: when reading or parsing the persisted database raises, the
registry silently becomes the empty fallback with threshold 0.6 (no
error value is returned), and authenticating against that state yields
the normal no-match result. -/
theorem C10_load_failure_fallback (nowLoad : String) (d : Encoding → Encoding → ℚ)
    (now : String) (probe : Encoding) (tol : ℚ) :
    load_database nowLoad .failed =
      { users := [], version := "1.0", accuracy_threshold := 6/10, created := none } ∧
    (authenticate_user d now probe (load_database nowLoad .failed) tol).1 =
      .success { is_match := false, matched_user := none, confidence := 0,
                 distance := none, threshold := tol } ∧
    (authenticate_user d now probe (load_database nowLoad .failed) tol).2 =
      load_database nowLoad .failed := by
  refine ⟨rfl, ?_, ?_⟩ <;> simp [authenticate_user, load_database, compareUsers]

/-! ## C3: authenticate is not read-only -/

/-- C3 (counterexample): on this concrete registry a matching probe
makes `authenticate_user` itself rewrite the matched record
(`last_authentication`, `authentication_count`) — the claim that
authentication leaves the registry unchanged and defers the update to
a separate caller-invoked operation is false. -/
theorem C3_counterexample :
    (authenticate_user sumAbs "n1" [1, 2] dbC3 (6/10)).2 = dbC3t ∧
    (authenticate_user sumAbs "n1" [1, 2] dbC3 (6/10)).2 ≠ dbC3 := by
  have h1 : (authenticate_user sumAbs "n1" [1, 2] dbC3 (6/10)).2 = dbC3t := by
    norm_num [authenticate_user, compareUsers, userOk, dbC3, recC3, dbC3t, recC3t,
      min_distance, avg_distance, user_score, listMin, listMean, sumAbs, touchUser]
  refine ⟨h1, ?_⟩
  rw [h1]
  simp [dbC3, recC3, dbC3t, recC3t]

/-- C3 (amended): `authenticate_user` leaves the registry unchanged
exactly when the outcome is a failure or a non-accepted result; when
the outcome is an accepted match for `uid`, the function itself — not
a separate caller-invoked operation — replaces that user's record by
one with `last_authentication = now` and an incremented
`authentication_count`, leaving every other identity untouched. -/
theorem C3_authenticate_mutation (d : Encoding → Encoding → ℚ) (now : String)
    (probe : Encoding) (db : Database) (tol : ℚ) :
    ((authenticate_user d now probe db tol).1 = .failure →
      (authenticate_user d now probe db tol).2 = db) ∧
    (∀ r, (authenticate_user d now probe db tol).1 = .success r → r.is_match = false →
      (authenticate_user d now probe db tol).2 = db) ∧
    (∀ r uid, (authenticate_user d now probe db tol).1 = .success r → r.is_match = true →
      r.matched_user = some uid →
      (authenticate_user d now probe db tol).2 =
        { db with users := touchUser uid now db.users } ∧
      (∀ v, v ≠ uid →
        dictGet v (authenticate_user d now probe db tol).2.users = dictGet v db.users) ∧
      (∀ rec, dictGet uid db.users = some rec →
        dictGet uid (authenticate_user d now probe db tol).2.users =
          some { rec with last_authentication := some now,
                          authentication_count := rec.authentication_count + 1 })) := by
  cases hc : compareUsers d probe db.users none with
  | none =>
    refine ⟨fun _ => by simp [authenticate_user, hc], ?_, ?_⟩
    · intro r hr _
      simp [authenticate_user, hc]
    · intro r uid hr _ _
      simp [authenticate_user, hc] at hr
  | some ob =>
    cases ob with
    | none =>
      refine ⟨?_, ?_, ?_⟩
      · intro hfail
        simp [authenticate_user, hc] at hfail
      · intro r hr _
        simp [authenticate_user, hc]
      · intro r uid hr hm hmu
        simp [authenticate_user, hc] at hr
        rw [← hr] at hm
        simp at hm
    | some b =>
      by_cases hb : b.score ≤ tol
      · refine ⟨?_, ?_, ?_⟩
        · intro hfail
          simp [authenticate_user, hc, hb] at hfail
        · intro r hr hm
          simp [authenticate_user, hc, hb] at hr
          rw [← hr] at hm
          simp at hm
        · intro r uid hr hm hmu
          simp [authenticate_user, hc, hb] at hr
          have huid : b.user_id = uid := by
            rw [← hr] at hmu
            simpa using hmu
          subst huid
          refine ⟨by simp [authenticate_user, hc, hb], ?_, ?_⟩
          · intro v hv
            simp [authenticate_user, hc, hb, dictGet_touchUser_ne _ now v hv]
          · intro rec hrec
            simp [authenticate_user, hc, hb, dictGet_touchUser_self, hrec]
      · refine ⟨?_, ?_, ?_⟩
        · intro hfail
          simp [authenticate_user, hc, hb] at hfail
        · intro r hr _
          simp [authenticate_user, hc, hb]
        · intro r uid hr hm hmu
          simp [authenticate_user, hc, hb] at hr
          rw [← hr] at hm
          simp at hm

/-- Witness for the amended C3 at a concrete accepted match. -/
theorem C3_authenticate_mutation_witness :
    dictGet "u1" (authenticate_user sumAbs "n1" [1, 2] dbC3 (6/10)).2.users =
      some { recC3 with last_authentication := some "n1",
                        authentication_count := recC3.authentication_count + 1 } := by
  have hr : (authenticate_user sumAbs "n1" [1, 2] dbC3 (6/10)).1 =
      .success { is_match := true, matched_user := some "u1", confidence := 1,
                 distance := some 0, threshold := 6/10 } := by
    norm_num [authenticate_user, compareUsers, userOk, dbC3, recC3, min_distance,
      avg_distance, user_score, listMin, listMean, sumAbs]
  exact ((C3_authenticate_mutation sumAbs "n1" [1, 2] dbC3 (6/10)).2.2 _ "u1" hr rfl
    rfl).2.2 recC3 rfl

/-! ## C5: registration silently overwrites an existing identity -/

/-- C5 (counterexample): re-registering the already-present identity
`"alice"` succeeds (`True`, not a duplicate error) and replaces the
stored record — the claim that enrollment on an existing `identity_id`
fails and leaves the record unchanged is false. -/
theorem C5_counterexample :
    (register_user "alice" [some sC5] "now1" dbC5).1 = true ∧
    (register_user "alice" [some sC5] "now1" dbC5).2.users = [("alice", recC5new)] ∧
    recC5new ≠ recC5old := by
  refine ⟨rfl, rfl, ?_⟩
  simp [recC5new, recC5old, sC5]

/-- C5 (amended): `register_user` performs no duplicate check at all:
whenever at least one sample survives processing it returns `True` and
assigns the freshly built record under the given `user_id`, silently
replacing any record already stored there. -/
theorem C5_register_overwrites (uid : String) (samples : List (Option FaceSample))
    (now : String) (db : Database) (s : FaceSample) (ss : List FaceSample)
    (h : samples.filterMap id = s :: ss) :
    ∀ rec : UserRecord,
      rec = { user_id := uid, face_encodings := s :: ss, enrollment_date := now,
              sample_count := (s :: ss).length, last_authentication := none,
              authentication_count := 0 } →
      register_user uid samples now db =
        (true, { db with users := dictSet uid rec db.users }) ∧
      dictGet uid (register_user uid samples now db).2.users = some rec := by
  intro rec hrec
  subst hrec
  constructor
  · simp [register_user, h]
  · simp [register_user, h, dictGet_dictSet_self]

/-- Witness for the amended C5: re-registering `"alice"` over `dbC5`. -/
theorem C5_register_overwrites_witness :
    (([none, some sC5] : List (Option FaceSample)).filterMap id = [sC5]) ∧
    (recC5new = { user_id := "alice", face_encodings := [sC5], enrollment_date := "now1",
                  sample_count := ([sC5] : List FaceSample).length,
                  last_authentication := none, authentication_count := 0 }) ∧
    (register_user "alice" [none, some sC5] "now1" dbC5 =
        (true, { dbC5 with users := dictSet "alice" recC5new dbC5.users }) ∧
      dictGet "alice" (register_user "alice" [none, some sC5] "now1" dbC5).2.users =
        some recC5new) :=
  ⟨by simp, rfl,
    C5_register_overwrites "alice" [none, some sC5] "now1" dbC5 sC5 [] (by simp)
      recC5new rfl⟩

/-! ## C9: enrollment drops failed samples and succeeds iff one survives -/

/-- C9: samples that fail capture or processing are dropped without
aborting enrollment; `register_user` succeeds exactly when at least
one sample (the hardwired minimum) survives, in which case the stored
record keeps the surviving samples in their original order with
`sample_count` equal to their number, `last_authentication = none` and
`authentication_count = 0`; otherwise it returns `False` and the
registry is unchanged. -/
theorem C9_enrollment (uid : String) (samples : List (Option FaceSample))
    (now : String) (db : Database) :
    ((register_user uid samples now db).1 = true ↔ 1 ≤ (samples.filterMap id).length) ∧
    (samples.filterMap id = [] → register_user uid samples now db = (false, db)) ∧
    (∀ s ss, samples.filterMap id = s :: ss →
      dictGet uid (register_user uid samples now db).2.users =
        some { user_id := uid, face_encodings := s :: ss, enrollment_date := now,
               sample_count := (s :: ss).length, last_authentication := none,
               authentication_count := 0 }) := by
  rcases hf : samples.filterMap id with _ | ⟨s, ss⟩
  · refine ⟨by simp [register_user, hf], fun _ => by simp [register_user, hf], ?_⟩
    intro s ss hc
    cases hc
  · refine ⟨by simp [register_user, hf], ?_, ?_⟩
    · intro hc
      cases hc
    · intro s2 ss2 hc
      injection hc with h1 h2
      subst h1
      subst h2
      simp [register_user, hf, dictGet_dictSet_self]

/-- Witness for C9: `"bob"` enrolled from three capture attempts of
which one fails, stored with the two surviving samples. -/
theorem C9_enrollment_witness :
    (([some sC9a, none, some sC9b] : List (Option FaceSample)).filterMap id =
      [sC9a, sC9b]) ∧
    dictGet "bob" (register_user "bob" [some sC9a, none, some sC9b] "nowB" dbC9).2.users =
      some { user_id := "bob", face_encodings := sC9a :: [sC9b], enrollment_date := "nowB",
             sample_count := (sC9a :: [sC9b] : List FaceSample).length,
             last_authentication := none, authentication_count := 0 } :=
  ⟨by simp,
    (C9_enrollment "bob" [some sC9a, none, some sC9b] "nowB" dbC9).2.2 sC9a [sC9b]
      (by simp)⟩

/-! ## C6: duplicate-aware import -/

/-- C6: importing a record whose identity already exists fails and
changes nothing when overwriting is declined, and with overwriting
confirmed it succeeds and replaces the stored record wholesale (the
old samples do not survive, nothing is merged), leaving every other
identity untouched. -/
theorem C6_import_duplicate (f : ExportFile) (db : Database) (r : UserRecord)
    (h : dictGet f.user_id db.users = some r) :
    import_user f false db = (false, db) ∧
    (import_user f true db).1 = true ∧
    (import_user f true db).2 =
      { db with users := dictSet f.user_id f.user_data db.users } ∧
    dictGet f.user_id (import_user f true db).2.users = some f.user_data ∧
    (∀ v, v ≠ f.user_id → dictGet v (import_user f true db).2.users = dictGet v db.users) := by
  refine ⟨?_, ?_, ?_, ?_, ?_⟩
  · simp [import_user, h]
  · simp [import_user, h]
  · simp [import_user, h]
  · simp [import_user, h, dictGet_dictSet_self]
  · intro v hv
    simp [import_user, h, dictGet_dictSet_ne _ v _ hv]

/-- Witness for C6: importing a file for the existing identity
`"dora"`. -/
theorem C6_import_duplicate_witness :
    (dictGet fC6.user_id dbC6.users = some recC6old) ∧
    (import_user fC6 false dbC6 = (false, dbC6) ∧
      (import_user fC6 true dbC6).1 = true ∧
      (import_user fC6 true dbC6).2 =
        { dbC6 with users := dictSet fC6.user_id fC6.user_data dbC6.users } ∧
      dictGet fC6.user_id (import_user fC6 true dbC6).2.users = some fC6.user_data ∧
      (∀ v, v ≠ fC6.user_id →
        dictGet v (import_user fC6 true dbC6).2.users = dictGet v dbC6.users)) :=
  ⟨by simp [fC6, dbC6, dictGet], C6_import_duplicate fC6 dbC6 recC6old
    (by simp [fC6, dbC6, dictGet])⟩

/-! ## C7: export followed by import reproduces the record -/

/-- C7: exporting a stored identity and importing the exported file
back into the same registry (overwrite confirmed) succeeds and leaves
the registry exactly as it was — in particular the re-imported record
is identical to the original, vectors, counters and timestamps
included. -/
theorem C7_export_import_round_trip (uid now : String) (db : Database) (r : UserRecord)
    (h : dictGet uid db.users = some r) :
    export_user uid now db =
      some { user_id := uid, user_data := r, exported_at := now, version := db.version } ∧
    import_user { user_id := uid, user_data := r, exported_at := now,
                  version := db.version } true db = (true, db) := by
  constructor
  · simp [export_user, h]
  · simp [import_user, h, dictSet_of_dictGet uid r db.users h]

/-- Witness for C7 on the registry containing `"carl"`. -/
theorem C7_export_import_round_trip_witness :
    (dictGet "carl" dbC7.users = some recC7) ∧
    (export_user "carl" "nowE" dbC7 =
        some { user_id := "carl", user_data := recC7, exported_at := "nowE",
               version := dbC7.version } ∧
      import_user { user_id := "carl", user_data := recC7, exported_at := "nowE",
                    version := dbC7.version } true dbC7 = (true, dbC7)) :=
  ⟨by simp [dbC7, dictGet], C7_export_import_round_trip "carl" "nowE" dbC7 recC7
    (by simp [dbC7, dictGet])⟩

/-! ## C2: tie-breaking in the comparison loop -/

/-- Running the comparison loop from an accumulated best `b0` either
returns `b0` itself (and then `b0` is at most every score in the
remaining list), or returns a strictly better candidate: the first
entry of the list attaining the final score, every earlier entry
scoring strictly worse and no entry scoring better. -/
theorem compareUsers_acc_spec (d : Encoding → Encoding → ℚ) (probe : Encoding) :
    ∀ (us : List (String × UserRecord)) (b0 b : BestMatch),
      compareUsers d probe us (some b0) = some (some b) →
      (b = b0 ∧ ∀ j, ∀ hj : j < us.length,
        b0.score ≤ scoreOfPair d probe (us.get ⟨j, hj⟩)) ∨
      (b.score < b0.score ∧ ∃ i, ∃ hi : i < us.length,
        (us.get ⟨i, hi⟩).1 = b.user_id ∧
        scoreOfPair d probe (us.get ⟨i, hi⟩) = b.score ∧
        (∀ j, ∀ hj : j < us.length, j < i →
          b.score < scoreOfPair d probe (us.get ⟨j, hj⟩)) ∧
        (∀ j, ∀ hj : j < us.length,
          b.score ≤ scoreOfPair d probe (us.get ⟨j, hj⟩))) := by
  intro us
  induction us with
  | nil =>
    intro b0 b h
    simp only [compareUsers, Option.some.injEq] at h
    left
    refine ⟨h.symm, ?_⟩
    intro j hj
    exact absurd hj (by simp)
  | cons p rest ih =>
    intro b0 b h
    rcases p with ⟨uid, rec⟩
    by_cases hok : userOk probe rec = true
    · simp only [compareUsers, hok, if_true] at h
      by_cases hlt :
          user_score d probe (rec.face_encodings.map (fun s => s.encoding)) < b0.score
      · rw [if_pos hlt] at h
        rcases ih _ _ h with ⟨heq, hall⟩ | ⟨hstrict, i, hi, h1, h2, h3, h4⟩
        · right
          have hscore : b.score =
              user_score d probe (rec.face_encodings.map (fun s => s.encoding)) := by
            rw [heq]
          have huid : b.user_id = uid := by rw [heq]
          refine ⟨by rw [hscore]; exact hlt, 0, by simp, huid.symm, ?_, ?_, ?_⟩
          · rw [hscore]; rfl
          · intro j hj hj0
            exact absurd hj0 (Nat.not_lt_zero j)
          · intro j hj
            cases j with
            | zero => rw [hscore]; exact le_refl _
            | succ k =>
              have hk : k < rest.length := by
                simpa using hj
              have h5 := hall k hk
              rw [hscore]
              exact h5
        · right
          have hlt2 : b.score <
              user_score d probe (rec.face_encodings.map (fun s => s.encoding)) := hstrict
          refine ⟨lt_trans hlt2 hlt, i + 1, by simpa using hi, h1, h2, ?_, ?_⟩
          · intro j hj hji
            cases j with
            | zero => exact hlt2
            | succ k =>
              have hk : k < rest.length := by simpa using hj
              exact h3 k hk (Nat.lt_of_succ_lt_succ hji)
          · intro j hj
            cases j with
            | zero => exact le_of_lt hlt2
            | succ k =>
              have hk : k < rest.length := by simpa using hj
              exact h4 k hk
      · rw [if_neg hlt] at h
        have hge : b0.score ≤
            user_score d probe (rec.face_encodings.map (fun s => s.encoding)) :=
          not_lt.mp hlt
        rcases ih _ _ h with ⟨heq, hall⟩ | ⟨hstrict, i, hi, h1, h2, h3, h4⟩
        · left
          refine ⟨heq, ?_⟩
          intro j hj
          cases j with
          | zero => exact hge
          | succ k =>
            have hk : k < rest.length := by simpa using hj
            exact hall k hk
        · right
          refine ⟨hstrict, i + 1, by simpa using hi, h1, h2, ?_, ?_⟩
          · intro j hj hji
            cases j with
            | zero => exact lt_of_lt_of_le hstrict hge
            | succ k =>
              have hk : k < rest.length := by simpa using hj
              exact h3 k hk (Nat.lt_of_succ_lt_succ hji)
          · intro j hj
            cases j with
            | zero => exact le_of_lt (lt_of_lt_of_le hstrict hge)
            | succ k =>
              have hk : k < rest.length := by simpa using hj
              exact h4 k hk
    · simp [compareUsers, hok] at h

/-- C2 (amended): the identity returned by the matching loop is the
FIRST identity, in the iteration (insertion) order of the `users`
mapping, whose score attains the global minimum: every earlier entry
scores strictly worse and no entry scores better.  Ties are therefore
broken by iteration order, not by lexicographic comparison of ids. -/
theorem C2_first_minimum_wins (d : Encoding → Encoding → ℚ) (now : String) (probe : Encoding)
    (db : Database) (tol : ℚ) (b : BestMatch)
    (h : compareUsers d probe db.users none = some (some b)) :
    (∃ r, (authenticate_user d now probe db tol).1 = .success r ∧
      r.matched_user = some b.user_id) ∧
    ∃ i, ∃ hi : i < db.users.length,
      (db.users.get ⟨i, hi⟩).1 = b.user_id ∧
      scoreOfPair d probe (db.users.get ⟨i, hi⟩) = b.score ∧
      (∀ j, ∀ hj : j < db.users.length, j < i →
        b.score < scoreOfPair d probe (db.users.get ⟨j, hj⟩)) ∧
      (∀ j, ∀ hj : j < db.users.length,
        b.score ≤ scoreOfPair d probe (db.users.get ⟨j, hj⟩)) := by
  constructor
  · by_cases hb : b.score ≤ tol
    · refine ⟨{ is_match := true, matched_user := some b.user_id, confidence := b.confidence,
                distance := some b.distance, threshold := tol }, ?_, rfl⟩
      simp [authenticate_user, h, hb]
    · refine ⟨{ is_match := false, matched_user := some b.user_id, confidence := b.confidence,
                distance := some b.distance, threshold := tol }, ?_, rfl⟩
      simp [authenticate_user, h, hb]
  · rcases hus : db.users with _ | ⟨⟨uid, rec⟩, rest⟩
    · rw [hus] at h
      simp [compareUsers] at h
    · rw [hus] at h
      by_cases hok : userOk probe rec = true
      · simp only [compareUsers, hok, if_true] at h
        rcases compareUsers_acc_spec d probe rest _ b h with
          ⟨heq, hall⟩ | ⟨hstrict, i, hi, h1, h2, h3, h4⟩
        · have hscore : b.score =
              user_score d probe (rec.face_encodings.map (fun s => s.encoding)) := by
            rw [heq]
          have huid : b.user_id = uid := by rw [heq]
          refine ⟨0, by simp, huid.symm, ?_, ?_, ?_⟩
          · rw [hscore]; rfl
          · intro j hj hj0
            exact absurd hj0 (Nat.not_lt_zero j)
          · intro j hj
            cases j with
            | zero => rw [hscore]; exact le_refl _
            | succ k =>
              have hk : k < rest.length := by simpa using hj
              have h5 := hall k hk
              rw [hscore]
              exact h5
        · have hlt2 : b.score <
              user_score d probe (rec.face_encodings.map (fun s => s.encoding)) := hstrict
          refine ⟨i + 1, by simpa using hi, h1, h2, ?_, ?_⟩
          · intro j hj hji
            cases j with
            | zero => exact hlt2
            | succ k =>
              have hk : k < rest.length := by simpa using hj
              exact h3 k hk (Nat.lt_of_succ_lt_succ hji)
          · intro j hj
            cases j with
            | zero => exact le_of_lt hlt2
            | succ k =>
              have hk : k < rest.length := by simpa using hj
              exact h4 k hk
      · simp [compareUsers, hok] at h

/-- C2 (counterexample): two identities tie exactly (identical sample
sets, hence identical scores under any distance function), yet the
engine selects `"zz"` — the one iterated first — although `"aa"` is
lexicographically smaller, so the claimed lexicographic tie-break is
false. -/
theorem C2_counterexample :
    ("aa" : String) < "zz" ∧
    (authenticate_user sumAbs "n2" [1, 2] dbC2 (6/10)).1 =
      .success { is_match := true, matched_user := some "zz", confidence := 1,
                 distance := some 0, threshold := 6/10 } := by
  constructor
  · rw [String.lt_iff_toList_lt]
    simp [String.toList]
    decide
  · norm_num [authenticate_user, compareUsers, userOk, dbC2, recC2z, recC2a,
      min_distance, avg_distance, user_score, listMin, listMean, sumAbs]

/-- Witness for the amended C2 on the concrete tied registry. -/
theorem C2_first_minimum_wins_witness :
    (compareUsers sumAbs [1, 2] dbC2.users none =
      some (some { user_id := "zz", distance := 0, avg_distance := 0, confidence := 1,
                   score := 0 })) ∧
    ∃ i, ∃ hi : i < dbC2.users.length, (dbC2.users.get ⟨i, hi⟩).1 = "zz" := by
  have h : compareUsers sumAbs [1, 2] dbC2.users none =
      some (some { user_id := "zz", distance := 0, avg_distance := 0, confidence := 1,
                   score := 0 }) := by
    norm_num [compareUsers, userOk, dbC2, recC2z, recC2a, min_distance, avg_distance,
      user_score, listMin, listMean, sumAbs]
  refine ⟨h, ?_⟩
  rcases (C2_first_minimum_wins sumAbs "n2" [1, 2] dbC2 (6/10) _ h).2 with ⟨i, hi, h1, _⟩
  exact ⟨i, hi, h1⟩

/-! ## C8: no upfront dimension check in the simple engine -/

/-- When every file in the scan is unparseable, lacks a user id, has no
encodings, or has an encoding whose length differs from the probe's
(so that `face_distance` raises and the per-file handler skips it),
the running best candidate is never updated. -/
theorem simpleScan_skips_all (d : Encoding → Encoding → ℚ) (probe : Encoding) :
    ∀ (files : List (Option (String × List Encoding))) (n : Nat)
      (best : Option (String × ℚ)),
      (∀ x ∈ files, ∀ uid encs, x = some (uid, encs) →
        uid = "" ∨ encs = [] ∨ encs.all (fun e => e.length = probe.length) = false) →
      (simpleScan d probe files n best).2 = best := by
  intro files
  induction files with
  | nil =>
    intro n best _
    rfl
  | cons x rest ih =>
    intro n best hall
    have hrest := fun y hy => hall y (List.mem_cons_of_mem _ hy)
    cases x with
    | none => simpa [simpleScan] using ih n best hrest
    | some p =>
      rcases p with ⟨uid, encs⟩
      rcases hall _ (List.mem_cons_self _ _) uid encs rfl with h1 | h2 | h3
      · subst h1
        simpa [simpleScan] using ih n best hrest
      · subst h2
        by_cases hu : uid = ""
        · simpa [simpleScan, hu] using ih n best hrest
        · simpa [simpleScan, hu] using ih n best hrest
      · by_cases hu : uid = ""
        · simpa [simpleScan, hu] using ih n best hrest
        · by_cases he : encs.isEmpty = true
          · simpa [simpleScan, hu, he] using ih n best hrest
          · simpa [simpleScan, hu, he, h3] using ih (n + 1) best hrest

/-- C8 (amended): neither engine checks the probe's dimension before
comparing.  In the simple engine a dimension mismatch surfaces inside
the per-file loop, is caught there, and only skips that identity; when
every identity is skipped the call returns the ordinary rejection
`false` — there is no distinct `DimensionMismatch` error at all. -/
theorem C8_no_dimension_error (d : Encoding → Encoding → ℚ) (probe : Encoding)
    (files : List (Option (String × List Encoding))) (tol : ℚ)
    (h : ∀ x ∈ files, ∀ uid encs, x = some (uid, encs) →
      uid = "" ∨ encs = [] ∨ encs.all (fun e => e.length = probe.length) = false) :
    simple_authenticate_user d probe files tol = false := by
  have hbest := simpleScan_skips_all d probe files 0 none h
  unfold simple_authenticate_user
  rcases hscan : simpleScan d probe files 0 none with ⟨n, best⟩
  rw [hscan] at hbest
  simp only at hbest
  subst hbest
  cases n with
  | zero => rfl
  | succ m => rfl

/-- Witness for the amended C8: a probe of length 2 against a lone
stored identity whose sample has length 3. -/
theorem C8_no_dimension_error_witness :
    (∀ x ∈ ([some ("u3", [[1, 1, 1]])] : List (Option (String × List Encoding))),
      ∀ uid encs, x = some (uid, encs) →
        uid = "" ∨ encs = [] ∨
          encs.all (fun e => e.length = ([2, 2] : Encoding).length) = false) ∧
    simple_authenticate_user sumAbs [2, 2] [some ("u3", [[1, 1, 1]])] (6/10) = false := by
  have h : ∀ x ∈ ([some ("u3", [[1, 1, 1]])] : List (Option (String × List Encoding))),
      ∀ uid encs, x = some (uid, encs) →
        uid = "" ∨ encs = [] ∨
          encs.all (fun e => e.length = ([2, 2] : Encoding).length) = false := by
    intro x hx uid encs hxe
    have hx2 : x = some ("u3", [[1, 1, 1]]) := by simpa using hx
    subst hx2
    injection hxe with hp
    injection hp with hu he
    subst hu
    subst he
    right
    right
    simp
  exact ⟨h, C8_no_dimension_error sumAbs [2, 2] _ (6/10) h⟩

/-- C8 (counterexample): with a probe of length 2, a registry whose
identity `"u1"` stores samples of (uniform) length 3 makes the simple
engine return the ordinary rejection `false` — not a distinct
`DimensionMismatch` failure issued before any comparison; and with a
second identity whose samples do match the probe's length, the scan
skips only the mismatched identity and even accepts the other one,
so comparison proceeds per identity after the mismatch. -/
theorem C8_counterexample :
    simple_authenticate_user sumAbs [5, 5] [some ("u1", [[0, 0, 0]])] (6/10) = false ∧
    simple_authenticate_user sumAbs [5, 5]
      [some ("zz9", [[0, 0, 0]]), some ("good", [[5, 5]])] (1/10) = true := by
  have hu1 : ¬ ("u1" = "") := by decide
  have hz9 : ¬ ("zz9" = "") := by decide
  have hgd : ¬ ("good" = "") := by decide
  constructor
  · norm_num [simple_authenticate_user, simpleScan, listMin, sumAbs, hu1]
  · norm_num [simple_authenticate_user, simpleScan, listMin, sumAbs, hz9, hgd]
